import Mathlib

/-!
Verification of the ASTRA-X aggregator core against its source: the message
and summary stores with their queries (app/crud.py), the context assembler
(app/utils.build_llm_messages), the monitoring payload normalizer
(app/utils.format_uptime_payload), the provider dispatcher (app/main.call_llm)
and the chat request handler together with the per-request transaction
semantics of the database dependency (app/main.chat_endpoint,
app/database.get_db).  Timestamps are modelled as integer epoch seconds.
-/

/-- JSON-like values, as produced by parsing a request or response body. -/
inductive Json where
  | null
  | bool (b : Bool)
  | num (n : Int)
  | str (s : String)
  | arr (elems : List Json)
  | obj (fields : List (String × Json))
deriving Repr

/-- Key lookup on a JSON object, mirroring dictionary access on a parsed
body.  Returns none when the value is not an object or the key is absent. -/
def Json.getKey : Json → String → Option Json
  | .obj fields, k => fields.lookup k
  | _, _ => Option.none

/-- Indexing into a JSON array, mirroring the list indexing in the OpenAI
reply extraction. -/
def Json.getIdx : Json → Nat → Option Json
  | .arr elems, i => elems[i]?
  | _, _ => Option.none

/-- A row of the messages table (app/models.Message).  The integer primary
key is assigned by the store and is consulted by none of the modelled
queries, so it is omitted here; ties between equal timestamps keep list
(insertion) order. -/
structure Message where
  ts : Int
  role : String
  source : String
  channel : String
  text : String
  raw_payload : Option Json
  meta : Option Json
deriving Repr

/-- A row of the summaries table (app/models.Summary). -/
structure Summary where
  ts : Int
  summary_text : String
  source_range : Option String
  tags : Option Json
deriving Repr

/-- Timestamp order on message rows (ORDER BY ts ASC). -/
def tsLE (a b : Message) : Prop := a.ts ≤ b.ts

/-- Reverse timestamp order on message rows (ORDER BY ts DESC). -/
def tsGE (a b : Message) : Prop := b.ts ≤ a.ts

/-- Strict timestamp order on message rows. -/
def tsLT (a b : Message) : Prop := a.ts < b.ts

/-- Strict reverse timestamp order on message rows. -/
def tsGT (a b : Message) : Prop := b.ts < a.ts

instance : DecidableRel tsLE := fun a b => inferInstanceAs (Decidable (a.ts ≤ b.ts))
instance : DecidableRel tsGE := fun a b => inferInstanceAs (Decidable (b.ts ≤ a.ts))
instance : IsTotal Message tsLE := ⟨fun a b => Int.le_total a.ts b.ts⟩
instance : IsTrans Message tsLE := ⟨fun _ _ _ h1 h2 => le_trans h1 h2⟩
instance : IsTotal Message tsGE := ⟨fun a b => Int.le_total b.ts a.ts⟩
instance : IsTrans Message tsGE := ⟨fun _ _ _ h1 h2 => le_trans h2 h1⟩
instance : IsAntisymm Message tsLT := ⟨fun _ _ h1 h2 => absurd h2 (not_lt.mpr (le_of_lt h1))⟩
instance : IsAntisymm Message tsGT := ⟨fun _ _ h1 h2 => absurd h2 (not_lt.mpr (le_of_lt h1))⟩

/-- Timestamp order on summary rows. -/
def sumLE (a b : Summary) : Prop := a.ts ≤ b.ts

/-- Reverse timestamp order on summary rows. -/
def sumGE (a b : Summary) : Prop := b.ts ≤ a.ts

instance : DecidableRel sumLE := fun a b => inferInstanceAs (Decidable (a.ts ≤ b.ts))
instance : DecidableRel sumGE := fun a b => inferInstanceAs (Decidable (b.ts ≤ a.ts))
instance : IsTotal Summary sumGE := ⟨fun a b => Int.le_total b.ts a.ts⟩
instance : IsTrans Summary sumGE := ⟨fun _ _ _ h1 h2 => le_trans h2 h1⟩

/-- ORDER BY ts ASC over a result set, modelled as a stable sort on the
timestamp so that rows with equal timestamps keep their insertion order. -/
def sortByTsAsc (rows : List Message) : List Message := rows.insertionSort tsLE

/-- ORDER BY ts DESC over a result set. -/
def sortByTsDesc (rows : List Message) : List Message := rows.insertionSort tsGE

/-- ORDER BY ts DESC over summary rows. -/
def sortSummariesDesc (rows : List Summary) : List Summary := rows.insertionSort sumGE

/-- crud.get_recent_messages: SELECT messages WHERE ts > since ORDER BY ts
ASC. -/
def get_recent_messages (log : List Message) (since : Int) : List Message :=
  sortByTsAsc (log.filter (fun m => decide (since < m.ts)))

/-- crud.get_messages_between: SELECT messages WHERE ts >= start AND
ts <= stop ORDER BY ts ASC (the second bound is named end in the source). -/
def get_messages_between (log : List Message) (start stop : Int) : List Message :=
  sortByTsAsc (log.filter (fun m => decide (start ≤ m.ts) && decide (m.ts ≤ stop)))

/-- crud.get_last_n_messages: the empty list for limit less or equal zero;
otherwise the subquery SELECT ts ORDER BY ts DESC LIMIT limit collects the
greatest limit timestamps (with multiplicity) and the outer query returns
every message whose ts is IN that collection, ORDER BY ts ASC. -/
def get_last_n_messages (log : List Message) (limit : Int) : List Message :=
  if limit ≤ 0 then []
  else sortByTsAsc (log.filter
    (fun m => decide (m.ts ∈ ((sortByTsDesc log).map Message.ts).take limit.toNat)))

/-- crud.get_recent_summaries: the empty list for limit less or equal zero;
otherwise SELECT summaries ORDER BY ts DESC LIMIT limit, reversed in memory
to ascending order. -/
def get_recent_summaries (sums : List Summary) (limit : Int) : List Summary :=
  if limit ≤ 0 then []
  else ((sortSummariesDesc sums).take limit.toNat).reverse

/-- One entry of the assembled prompt: a role and content pair in the shape
sent to the chat APIs. -/
structure ChatMsg where
  role : String
  content : String
deriving Repr, DecidableEq

/-- Truthiness of an optional string: an absent value and the empty string
are falsy, matching the guards on the override and the API key. -/
def truthyOptStr : Option String → Bool
  | Option.none => false
  | some s => decide (s ≠ "")

/-- Configuration consumed by the context assembler: the contents of the
static and structure prompt files (get_static_prompt and
get_structure_prompt return the empty string when a file is missing) and the
SYSTEM_PROMPT override from the environment (absent when unset). -/
structure PromptEnv where
  static_prompt : String
  structure_prompt : String
  system_prompt_override : Option String
deriving Repr

/-- ASCII lower-casing, the effect of the lower() calls on the role and
provider strings occurring here. -/
def strLower (s : String) : String := String.mk (s.data.map Char.toLower)

/-- ASCII upper-casing, the effect of the upper() call on the status text. -/
def strUpper (s : String) : String := String.mk (s.data.map Char.toUpper)

/-- Role normalization applied to each short-window message inside
build_llm_messages: the stored role is lower-cased, and any role outside
user and assistant is treated as a system message. -/
def mapShortRole (role : String) : String :=
  let r := strLower role
  if r = "user" ∨ r = "assistant" then r else "system"

/-- The instruction entries of build_llm_messages: the static prompt, the
structure prompt and the override, in that order, each as its own
system-role entry and each included only when non-empty (truthy). -/
def instructionBlock (env : PromptEnv) : List ChatMsg :=
  (if env.static_prompt ≠ "" then [ChatMsg.mk "system" env.static_prompt] else []) ++
  (if env.structure_prompt ≠ "" then [ChatMsg.mk "system" env.structure_prompt] else []) ++
  (match env.system_prompt_override with
   | some s => if s ≠ "" then [ChatMsg.mk "system" s] else []
   | Option.none => [])

/-- The summary entries of build_llm_messages: the recent summaries, each as
a system entry carrying its text verbatim. -/
def summaryBlock (sums : List Summary) (summary_limit : Int) : List ChatMsg :=
  (get_recent_summaries sums summary_limit).map (fun s => ChatMsg.mk "system" s.summary_text)

/-- The short-window entries of build_llm_messages: every message with ts
strictly after the cutoff, ascending, with the role normalization applied
and the text copied verbatim. -/
def shortBlock (log : List Message) (cutoff : Int) : List ChatMsg :=
  (get_recent_messages log cutoff).map (fun m => ChatMsg.mk (mapShortRole m.role) m.text)

/-- utils.build_llm_messages: the instruction entries, then up to
summary_limit summaries ascending, then the short-window messages with ts
strictly greater than now minus short_window_minutes, then exactly one final
entry carrying the current role and text. -/
def build_llm_messages (env : PromptEnv) (log : List Message) (sums : List Summary)
    (now : Int) (current_text : String) (current_role : String)
    (short_window_minutes : Int) (summary_limit : Int) : List ChatMsg :=
  instructionBlock env ++ summaryBlock sums summary_limit ++
    shortBlock log (now - short_window_minutes * 60) ++ [ChatMsg.mk current_role current_text]

/-- Scalar values of a parsed webhook payload, with the truthiness and the
str() rendering that the normalizer relies on. -/
inductive PyVal where
  | none
  | bool (b : Bool)
  | int (n : Int)
  | str (s : String)
deriving Repr, DecidableEq

/-- Truthiness of a payload value: None, False, zero and the empty string
are falsy. -/
def PyVal.truthy : PyVal → Bool
  | .none => false
  | .bool b => b
  | .int n => decide (n ≠ 0)
  | .str s => decide (s ≠ "")

/-- The str() rendering of a payload value, as interpolated into the
normalized line. -/
def PyVal.pyStr : PyVal → String
  | .none => "None"
  | .bool b => cond b "True" "False"
  | .int n => toString n
  | .str s => s

/-- A parsed JSON webhook payload: a dictionary with string keys. -/
abbrev Payload := List (String × PyVal)

/-- payload.get(key): the value bound to the key, None when absent. -/
def pyGet (p : Payload) (k : String) : PyVal :=
  match p.lookup k with
  | some v => v
  | Option.none => PyVal.none

/-- The Python expression x or y: keeps x when truthy, else yields y. -/
def PyVal.orDefault (x y : PyVal) : PyVal := if x.truthy then x else y

/-- Monitor name resolution of format_uptime_payload: monitor_name, then
name, then the default Unknown monitor. -/
def uptimeName (p : Payload) : PyVal :=
  PyVal.orDefault (pyGet p "monitor_name")
    (PyVal.orDefault (pyGet p "name") (PyVal.str "Unknown monitor"))

/-- Status resolution of format_uptime_payload: status, then event, then the
default unknown. -/
def uptimeStatus (p : Payload) : PyVal :=
  PyVal.orDefault (pyGet p "status")
    (PyVal.orDefault (pyGet p "event") (PyVal.str "unknown"))

/-- Optional message resolution of format_uptime_payload: msg, then message,
with no default. -/
def uptimeMessage (p : Payload) : PyVal :=
  PyVal.orDefault (pyGet p "msg") (pyGet p "message")

/-- Optional URL resolution of format_uptime_payload: monitor_url, then url,
with no default. -/
def uptimeUrl (p : Payload) : PyVal :=
  PyVal.orDefault (pyGet p "monitor_url") (pyGet p "url")

/-- The parts list built by format_uptime_payload: the headline, then the
URL part when truthy, then the message part when truthy. -/
def uptimeParts (p : Payload) : List String :=
  ["[Uptime Kuma] " ++ (uptimeName p).pyStr ++ " is " ++ strUpper (uptimeStatus p).pyStr] ++
  (if (uptimeUrl p).truthy then ["URL: " ++ (uptimeUrl p).pyStr] else []) ++
  (if (uptimeMessage p).truthy then ["Message: " ++ (uptimeMessage p).pyStr] else [])

/-- The separator join sep.join(parts) used on the parts list. -/
def joinSep (sep : String) : List String → String
  | [] => ""
  | [x] => x
  | x :: xs => x ++ sep ++ joinSep sep xs

/-- utils.format_uptime_payload: one human readable line joining the present
parts with the fixed delimiter. -/
def format_uptime_payload (p : Payload) : String :=
  joinSep " | " (uptimeParts p)

/-- Outcome of one HTTP POST performed by the httpx client: a transport or
non-2xx failure carrying the exception text, or a parsed 2xx JSON body. -/
inductive HttpOutcome where
  | fail (err : String)
  | ok (body : Json)

/-- An HTTPException raised by the dispatcher or the handlers. -/
structure HttpErr where
  status : Nat
  detail : String
deriving Repr, DecidableEq

/-- The transport layer (client.post): a function from URL, optional bearer
token and JSON request body to an outcome. -/
abbrev Transport := String → Option String → Json → HttpOutcome

/-- config.settings.LLMConfig, restricted to the fields the dispatcher
reads: the provider selector, the Ollama host and model, the optional
OpenAI API key and the OpenAI model. -/
structure LLMConfig where
  provider : String
  ollama_host : String
  ollama_model : String
  openai_api_key : Option String
  openai_model : String
deriving Repr

/-- host.rstrip applied to the slash character. -/
def rstripSlash (s : String) : String := s.dropRightWhile (fun c => c = '/')

/-- One prompt entry rendered as a JSON object for the request body. -/
def ChatMsg.toJson (m : ChatMsg) : Json :=
  Json.obj [("role", Json.str m.role), ("content", Json.str m.content)]

/-- Reply extraction for the Ollama response:
data.get("message", ...).get("content"), where an absent or JSON-null
content is the Python None that triggers the no-content error; a message
value that is not an object is folded into the same absent case. -/
def ollamaReply (data : Json) : Option Json :=
  match ((data.getKey "message").getD (Json.obj [])).getKey "content" with
  | some Json.null => Option.none
  | r => r

/-- Reply extraction for the OpenAI response: the content field of the
message of the first choice; any failing lookup or index is the exception
caught by the surrounding try. -/
def openaiReply (data : Json) : Option Json := do
  let choices ← data.getKey "choices"
  let c0 ← choices.getIdx 0
  let msg ← c0.getKey "message"
  msg.getKey "content"

/-- main.call_llm: dispatch on the lower-cased provider.  The Ollama branch
posts to host/api/chat without auth; the OpenAI branch first fails with the
missing-credential error when the API key is absent or empty, then posts
with a bearer token.  An unsupported provider fails before any call.  The
second component counts the transport invocations performed. -/
def call_llm (cfg : LLMConfig) (transport : Transport) (messages : List ChatMsg) :
    Except HttpErr Json × Nat :=
  let provider := strLower cfg.provider
  if provider = "ollama" then
    let url := rstripSlash cfg.ollama_host ++ "/api/chat"
    let payload := Json.obj
      [("model", Json.str cfg.ollama_model),
       ("messages", Json.arr (messages.map ChatMsg.toJson)),
       ("stream", Json.bool false)]
    match transport url Option.none payload with
    | .fail e => (Except.error ⟨502, "Ollama API error: " ++ e⟩, 1)
    | .ok data =>
      match ollamaReply data with
      | Option.none => (Except.error ⟨500, "Ollama API returned no content"⟩, 1)
      | some r => (Except.ok r, 1)
  else if provider = "openai" then
    if truthyOptStr cfg.openai_api_key = false then
      (Except.error ⟨500, "OPENAI_API_KEY is not set but LLM_PROVIDER is \x27openai\x27"⟩, 0)
    else
      let url := "https://api.openai.com/v1/chat/completions"
      let auth := some ("Bearer " ++ cfg.openai_api_key.getD "")
      let payload := Json.obj
        [("model", Json.str cfg.openai_model),
         ("messages", Json.arr (messages.map ChatMsg.toJson)),
         ("stream", Json.bool false)]
      match transport url auth payload with
      | .fail e => (Except.error ⟨502, "OpenAI API error: " ++ e⟩, 1)
      | .ok data =>
        match openaiReply data with
        | Option.none => (Except.error ⟨500, "OpenAI API returned unexpected response"⟩, 1)
        | some r => (Except.ok r, 1)
  else
    (Except.error ⟨500, "Unsupported LLM provider: " ++ cfg.provider⟩, 0)

/-- The per-request SQLAlchemy session over the messages table: the rows
durable in the database and the rows added in this session but not yet
flushed or committed.  With autoflush and autocommit disabled, added rows
stay invisible to queries until the commit in get_db. -/
structure SessionState where
  committed : List Message
  pending : List Message
deriving Repr

/-- crud.create_message: construct the row and db.add it; no commit or flush
happens here. -/
def create_message (st : SessionState) (ts : Int)
    (role source channel text : String) (raw_payload : Option Json) : SessionState :=
  SessionState.mk st.committed (st.pending ++ [Message.mk ts role source channel text raw_payload Option.none])

/-- database.get_db success path: db.commit() makes the added rows durable. -/
def sessionCommit (st : SessionState) : SessionState :=
  SessionState.mk (st.committed ++ st.pending) []

/-- database.get_db failure path: db.rollback() discards the rows added in
the aborted request. -/
def sessionRollback (st : SessionState) : SessionState :=
  SessionState.mk st.committed []

/-- Best-effort text rendering of a reply value, the coercion applied when
the reply is stored in the text column; replies are JSON strings in every
scenario exercised here. -/
def Json.asText : Json → String
  | .str s => s
  | .null => "None"
  | .bool b => cond b "True" "False"
  | .num n => toString n
  | .arr _ => "[...]"
  | .obj _ => "\x7b...\x7d"

/-- main.chat_endpoint on a request body carrying the non-empty text field:
record the user message through create_message (still uncommitted, hence
invisible to the context queries), assemble the context, call the
dispatcher, and either record the assistant reply and let get_db commit
both rows, or let the raised HTTPException propagate so that get_db rolls
the transaction back.  Returns the final durable session state and the
HTTP result. -/
def chat_endpoint (cfg : LLMConfig) (env : PromptEnv) (transport : Transport)
    (st : SessionState) (sums : List Summary) (text : String) (now : Int) :
    SessionState × Except HttpErr String :=
  let st1 := create_message st now "user" "web-chat" "chat" text Option.none
  let messages := build_llm_messages env st1.committed sums now text "user" 15 30
  match (call_llm cfg transport messages).1 with
  | Except.error e => (sessionRollback st1, Except.error e)
  | Except.ok reply =>
    let st2 := create_message st1 now "assistant" "ollama" "chat" reply.asText Option.none
    (sessionCommit st2, Except.ok reply.asText)

lemma sorted_sortByTsAsc (l : List Message) : List.Sorted tsLE (sortByTsAsc l) :=
  List.sorted_insertionSort tsLE l

lemma perm_sortByTsAsc (l : List Message) : List.Perm (sortByTsAsc l) l :=
  List.perm_insertionSort tsLE l

lemma mem_sortByTsAsc {l : List Message} {m : Message} : m ∈ sortByTsAsc l ↔ m ∈ l :=
  (perm_sortByTsAsc l).mem_iff

lemma pairwise_ne_of_nodup_map {l : List Message} (h : (l.map Message.ts).Nodup) :
    List.Pairwise (fun a b => a.ts ≠ b.ts) l := List.pairwise_map.mp h

lemma pairwise_tsLT_of_le_ne {l : List Message} (hle : List.Pairwise tsLE l)
    (hne : List.Pairwise (fun a b => a.ts ≠ b.ts) l) : List.Pairwise tsLT l :=
  (hle.and hne).imp (fun h => lt_of_le_of_ne h.1 h.2)

lemma pairwise_tsGT_of_ge_ne {l : List Message} (hge : List.Pairwise tsGE l)
    (hne : List.Pairwise (fun a b => a.ts ≠ b.ts) l) : List.Pairwise tsGT l :=
  (hge.and hne).imp (fun h => lt_of_le_of_ne h.1 (fun he => h.2 he.symm))

lemma getElem?_append_offset {α : Type} (a b : List α) (i : Nat) :
    (a ++ b)[a.length + i]? = b[i]? := by
  rw [List.getElem?_append_right (Nat.le_add_right _ _)]
  simp

/-- Key lemma for the tail query: over a strictly ascending row list,
keeping exactly the rows whose timestamp lies among the k greatest
timestamps amounts to dropping all but the last k rows. -/
lemma filter_mem_take_reverse (s : List Message) (k : Nat)
    (hs : List.Pairwise tsLT s) :
    s.filter (fun m => decide (m.ts ∈ ((s.map Message.ts).reverse.take k))) =
      s.drop (s.length - k) := by
  induction s with
  | nil => simp
  | cons x xs ih =>
    have hx_lt : ∀ b ∈ xs, x.ts < b.ts := fun b hb => (List.pairwise_cons.mp hs).1 b hb
    have hs_tail : List.Pairwise tsLT xs := (List.pairwise_cons.mp hs).2
    by_cases hk : k ≤ xs.length
    · have hlen : k ≤ ((xs.map Message.ts).reverse).length := by simpa using hk
      have hrev : ((x :: xs).map Message.ts).reverse.take k
          = (xs.map Message.ts).reverse.take k := by
        rw [List.map_cons, List.reverse_cons, List.take_append_of_le_length hlen]
      have hxnot : x.ts ∉ (xs.map Message.ts).reverse.take k := by
        intro hmem
        have h1 : x.ts ∈ xs.map Message.ts := List.mem_reverse.mp (List.mem_of_mem_take hmem)
        obtain ⟨b, hb, hbe⟩ := List.mem_map.mp h1
        exact absurd hbe (ne_of_gt (hx_lt b hb))
      rw [hrev, List.filter_cons]
      have hdec : (decide (x.ts ∈ (xs.map Message.ts).reverse.take k)) = false := by
        simpa using hxnot
      rw [hdec]
      simp only [Bool.false_eq_true, if_false]
      rw [ih hs_tail]
      have harith : (x :: xs).length - k = (xs.length - k) + 1 := by
        simp only [List.length_cons]
        omega
      rw [harith, List.drop_succ_cons]
    · have hlen2 : ((x :: xs).map Message.ts).reverse.length ≤ k := by
        simp only [List.length_reverse, List.length_map, List.length_cons]
        omega
      have hall : ∀ m ∈ x :: xs,
          m.ts ∈ ((x :: xs).map Message.ts).reverse.take k := by
        intro m hm
        rw [List.take_of_length_le hlen2]
        exact List.mem_reverse.mpr (List.mem_map_of_mem Message.ts hm)
      have hfe : (x :: xs).filter
          (fun m => decide (m.ts ∈ ((x :: xs).map Message.ts).reverse.take k)) = x :: xs :=
        List.filter_eq_self.mpr (fun a ha => by simpa using hall a ha)
      rw [hfe]
      have : (x :: xs).length - k = 0 := by
        simp only [List.length_cons]
        omega
      rw [this, List.drop_zero]

/-- With pairwise distinct timestamps, the descending sort is the reverse of
the ascending sort. -/
lemma sortByTsDesc_eq_reverse (log : List Message) (hnd : (log.map Message.ts).Nodup) :
    sortByTsDesc log = (sortByTsAsc log).reverse := by
  have ps : List.Perm (sortByTsAsc log) log := List.perm_insertionSort tsLE log
  have pd : List.Perm (sortByTsDesc log) log := List.perm_insertionSort tsGE log
  have hperm : List.Perm (sortByTsDesc log) (sortByTsAsc log).reverse :=
    pd.trans (ps.symm.trans (List.reverse_perm _).symm)
  have nds : ((sortByTsAsc log).map Message.ts).Nodup := ((ps.map Message.ts).nodup_iff).mpr hnd
  have ndd : ((sortByTsDesc log).map Message.ts).Nodup := ((pd.map Message.ts).nodup_iff).mpr hnd
  have s_lt : List.Pairwise tsLT (sortByTsAsc log) :=
    pairwise_tsLT_of_le_ne (List.sorted_insertionSort tsLE log) (pairwise_ne_of_nodup_map nds)
  have d_gt : List.Pairwise tsGT (sortByTsDesc log) :=
    pairwise_tsGT_of_ge_ne (List.sorted_insertionSort tsGE log) (pairwise_ne_of_nodup_map ndd)
  have r_gt : List.Pairwise tsGT (sortByTsAsc log).reverse := by
    rw [List.pairwise_reverse]
    exact s_lt
  exact List.eq_of_perm_of_sorted hperm d_gt r_gt

/-- With pairwise distinct timestamps, sorting a filtered log is filtering
the sorted log. -/
lemma sortAsc_filter_comm (log : List Message) (p : Message → Bool)
    (hnd : (log.map Message.ts).Nodup) :
    sortByTsAsc (log.filter p) = (sortByTsAsc log).filter p := by
  have ps : List.Perm (sortByTsAsc log) log := perm_sortByTsAsc log
  have nds : ((sortByTsAsc log).map Message.ts).Nodup := ((ps.map Message.ts).nodup_iff).mpr hnd
  have s_lt : List.Pairwise tsLT (sortByTsAsc log) :=
    pairwise_tsLT_of_le_ne (sorted_sortByTsAsc log) (pairwise_ne_of_nodup_map nds)
  have rhs_lt : List.Pairwise tsLT ((sortByTsAsc log).filter p) := s_lt.filter p
  have hfnd : ((log.filter p).map Message.ts).Nodup :=
    List.Nodup.sublist ((List.filter_sublist log).map Message.ts) hnd
  have pl : List.Perm (sortByTsAsc (log.filter p)) (log.filter p) := perm_sortByTsAsc _
  have lnd : ((sortByTsAsc (log.filter p)).map Message.ts).Nodup :=
    ((pl.map Message.ts).nodup_iff).mpr hfnd
  have lhs_lt : List.Pairwise tsLT (sortByTsAsc (log.filter p)) :=
    pairwise_tsLT_of_le_ne (sorted_sortByTsAsc _) (pairwise_ne_of_nodup_map lnd)
  have hperm : List.Perm (sortByTsAsc (log.filter p)) ((sortByTsAsc log).filter p) :=
    pl.trans ((ps.filter p).symm)
  exact List.eq_of_perm_of_sorted hperm lhs_lt rhs_lt

def tieA : Message := Message.mk 5 "user" "web-chat" "chat" "first" Option.none Option.none

def tieB : Message := Message.mk 5 "user" "web-chat" "chat" "second" Option.none Option.none

/-- C2 counterexample: two stored messages share the timestamp 5; the tail
query with n = 1 returns both rows, so it does not return exactly the last
one message. -/
theorem tail_query_ties_exceed_limit :
    (get_last_n_messages [tieA, tieB] 1).length = 2 ∧
    get_last_n_messages [tieA, tieB] 1 = [tieA, tieB] := by
  constructor <;> rfl

/-- C2 amended: the tail query is always ascending by timestamp; it returns
the empty sequence for n at most 0 and the whole log ascending for n greater
than the log size; and whenever the stored timestamps are pairwise distinct
it returns exactly the last n messages by time in ascending order.  With
tied timestamps every message sharing one of the n greatest timestamps is
returned, which can exceed n, as the counterexample shows. -/
theorem tail_query_spec_amended (log : List Message) (n : Int) :
    List.Sorted tsLE (get_last_n_messages log n) ∧
    (n ≤ 0 → get_last_n_messages log n = []) ∧
    ((log.length : Int) < n → get_last_n_messages log n = sortByTsAsc log) ∧
    ((log.map Message.ts).Nodup →
      get_last_n_messages log n = (sortByTsAsc log).drop (log.length - n.toNat)) := by
  refine ⟨?_, ?_, ?_, ?_⟩
  · unfold get_last_n_messages
    by_cases hn : n ≤ 0
    · simp [hn]
    · rw [if_neg hn]
      exact sorted_sortByTsAsc _
  · intro hn
    simp [get_last_n_messages, hn]
  · intro hlen
    have hn : ¬ n ≤ 0 := by omega
    unfold get_last_n_messages
    rw [if_neg hn]
    have hkk : ((sortByTsDesc log).map Message.ts).length ≤ n.toNat := by
      have : (sortByTsDesc log).length = log.length :=
        (List.perm_insertionSort tsGE log).length_eq
      simp only [List.length_map, this]
      omega
    simp only [List.take_of_length_le hkk]
    have hfe : log.filter
        (fun m => decide (m.ts ∈ (sortByTsDesc log).map Message.ts)) = log := by
      apply List.filter_eq_self.mpr
      intro a ha
      simp only [decide_eq_true_eq]
      exact List.mem_map_of_mem Message.ts
        (((List.perm_insertionSort tsGE log).mem_iff).mpr ha)
    rw [hfe]
  · intro hnd
    by_cases hn : n ≤ 0
    · have h0 : n.toNat = 0 := Int.toNat_of_nonpos hn
      have hlen : (sortByTsAsc log).length = log.length := (perm_sortByTsAsc log).length_eq
      rw [h0, Nat.sub_zero, ← hlen, List.drop_length]
      simp [get_last_n_messages, hn]
    · unfold get_last_n_messages
      rw [if_neg hn]
      rw [sortAsc_filter_comm log _ hnd]
      have hdesc : sortByTsDesc log = (sortByTsAsc log).reverse :=
        sortByTsDesc_eq_reverse log hnd
      simp only [hdesc, List.map_reverse]
      have ps : List.Perm (sortByTsAsc log) log := perm_sortByTsAsc log
      have nds : ((sortByTsAsc log).map Message.ts).Nodup :=
        ((ps.map Message.ts).nodup_iff).mpr hnd
      have s_lt : List.Pairwise tsLT (sortByTsAsc log) :=
        pairwise_tsLT_of_le_ne (sorted_sortByTsAsc log) (pairwise_ne_of_nodup_map nds)
      rw [filter_mem_take_reverse (sortByTsAsc log) n.toNat s_lt]
      rw [ps.length_eq]

def distinctLog : List Message :=
  [Message.mk 30 "user" "web-chat" "chat" "c" Option.none Option.none,
   Message.mk 10 "user" "web-chat" "chat" "a" Option.none Option.none,
   Message.mk 20 "assistant" "ollama" "chat" "b" Option.none Option.none]

/-- C2 witness: on a three-row log with distinct timestamps the tail query
with n = 2 returns exactly the last two rows ascending, and with n = 5 the
whole log ascending. -/
theorem tail_query_spec_amended_wit :
    get_last_n_messages distinctLog 2 =
      (sortByTsAsc distinctLog).drop (distinctLog.length - (2 : Int).toNat) ∧
    get_last_n_messages distinctLog 5 = sortByTsAsc distinctLog ∧
    get_last_n_messages distinctLog (-1) = [] :=
  ⟨(tail_query_spec_amended distinctLog 2).2.2.2 (by decide),
   (tail_query_spec_amended distinctLog 5).2.2.1 (by decide),
   (tail_query_spec_amended distinctLog (-1)).2.1 (by decide)⟩

/-- C7: the range query returns exactly the messages with
start ≤ ts ≤ stop, both bounds inclusive, in ascending timestamp order, and
is empty whenever stop < start. -/
theorem range_query_spec (log : List Message) (start stop : Int) :
    (∀ m, m ∈ get_messages_between log start stop ↔
      (m ∈ log ∧ start ≤ m.ts ∧ m.ts ≤ stop)) ∧
    List.Sorted tsLE (get_messages_between log start stop) ∧
    (stop < start → get_messages_between log start stop = []) := by
  refine ⟨?_, ?_, ?_⟩
  · intro m
    unfold get_messages_between
    rw [mem_sortByTsAsc, List.mem_filter]
    simp [and_assoc]
  · exact sorted_sortByTsAsc _
  · intro h
    unfold get_messages_between
    have hnil : log.filter (fun m => decide (start ≤ m.ts) && decide (m.ts ≤ stop)) = [] := by
      apply List.filter_eq_nil_iff.mpr
      intro a _
      simp only [Bool.and_eq_true, decide_eq_true_eq, not_and]
      intro h1 h2
      omega
    rw [hnil]
    rfl

/-- C7 witness: with inverted bounds the range query on the demo log is
empty. -/
theorem range_query_spec_wit : get_messages_between distinctLog 25 5 = [] :=
  (range_query_spec distinctLog 25 5).2.2 (by decide)

/-- C4: for every configuration, store state, clock reading, non-empty
current text and any current role, the assembled prompt is non-empty and its
last entry is exactly the current role and text pair. -/
theorem assembler_last_entry_current (env : PromptEnv) (log : List Message)
    (sums : List Summary) (now : Int) (current_text current_role : String)
    (w sl : Int) (_hct : current_text ≠ "") :
    build_llm_messages env log sums now current_text current_role w sl ≠ [] ∧
    (build_llm_messages env log sums now current_text current_role w sl).getLast? =
      some (ChatMsg.mk current_role current_text) := by
  have hsplit : build_llm_messages env log sums now current_text current_role w sl =
      (instructionBlock env ++ summaryBlock sums sl ++
        shortBlock log (now - w * 60)) ++ [ChatMsg.mk current_role current_text] := by
    unfold build_llm_messages
    simp [List.append_assoc]
  constructor
  · rw [hsplit]
    simp
  · rw [hsplit, List.getLast?_concat]

/-- C4 witness: on a concrete store the prompt ends with the current user
entry. -/
theorem assembler_last_entry_current_wit :
    build_llm_messages ⟨"", "", Option.none⟩ distinctLog [] 100 "hello" "user" 15 30 ≠ [] ∧
    (build_llm_messages ⟨"", "", Option.none⟩ distinctLog [] 100 "hello" "user" 15 30).getLast? =
      some (ChatMsg.mk "user" "hello") :=
  assembler_last_entry_current ⟨"", "", Option.none⟩ distinctLog [] 100 "hello" "user" 15 30
    (by decide)

/-- C3: the assembled prompt is the concatenation, in this order, of the
instruction block (static text, then structure text, then the override,
each a distinct system-role entry included only when non-empty, the
override never merged into the others), the summary block, the short-window
block and the final current entry; the position equations certify that
every summary entry precedes every short-window entry, which precedes the
final current entry. -/
theorem assembler_block_order (env : PromptEnv) (log : List Message)
    (sums : List Summary) (now : Int) (ct cr : String) (w sl : Int) :
    build_llm_messages env log sums now ct cr w sl =
      instructionBlock env ++ (summaryBlock sums sl ++
        (shortBlock log (now - w * 60) ++ [ChatMsg.mk cr ct])) ∧
    instructionBlock env =
      (if env.static_prompt ≠ "" then [ChatMsg.mk "system" env.static_prompt] else []) ++
      (if env.structure_prompt ≠ "" then [ChatMsg.mk "system" env.structure_prompt] else []) ++
      (match env.system_prompt_override with
       | some s => if s ≠ "" then [ChatMsg.mk "system" s] else []
       | Option.none => []) ∧
    (∀ i, i < (summaryBlock sums sl).length →
      (build_llm_messages env log sums now ct cr w sl)[(instructionBlock env).length + i]? =
        (summaryBlock sums sl)[i]?) ∧
    (∀ j, j < (shortBlock log (now - w * 60)).length →
      (build_llm_messages env log sums now ct cr w sl)[(instructionBlock env).length +
          ((summaryBlock sums sl).length + j)]? = (shortBlock log (now - w * 60))[j]?) ∧
    (build_llm_messages env log sums now ct cr w sl)[(instructionBlock env).length +
        ((summaryBlock sums sl).length + (shortBlock log (now - w * 60)).length)]? =
      some (ChatMsg.mk cr ct) ∧
    (build_llm_messages env log sums now ct cr w sl).length =
      (instructionBlock env).length + (summaryBlock sums sl).length +
        (shortBlock log (now - w * 60)).length + 1 ∧
    (truthyOptStr env.system_prompt_override = true →
      (instructionBlock env).getLast? =
        some (ChatMsg.mk "system" (env.system_prompt_override.getD ""))) := by
  have hsplit : build_llm_messages env log sums now ct cr w sl =
      instructionBlock env ++ (summaryBlock sums sl ++
        (shortBlock log (now - w * 60) ++ [ChatMsg.mk cr ct])) := by
    unfold build_llm_messages
    simp [List.append_assoc]
  refine ⟨hsplit, rfl, ?_, ?_, ?_, ?_, ?_⟩
  · intro i hi
    rw [hsplit, getElem?_append_offset, List.getElem?_append_left hi]
  · intro j hj
    rw [hsplit, getElem?_append_offset, getElem?_append_offset, List.getElem?_append_left hj]
  · rw [hsplit, getElem?_append_offset, getElem?_append_offset]
    have h0 : (shortBlock log (now - w * 60)).length =
        (shortBlock log (now - w * 60)).length + 0 := rfl
    rw [h0, getElem?_append_offset]
    rfl
  · rw [hsplit]
    simp [List.length_append]
    omega
  · intro hov
    match hoveq : env.system_prompt_override with
    | Option.none =>
      rw [hoveq] at hov
      simp [truthyOptStr] at hov
    | some s =>
      rw [hoveq] at hov
      have hne : s ≠ "" := by simpa [truthyOptStr] using hov
      have : instructionBlock env =
          ((if env.static_prompt ≠ "" then [ChatMsg.mk "system" env.static_prompt] else []) ++
           (if env.structure_prompt ≠ "" then [ChatMsg.mk "system" env.structure_prompt] else [])) ++
          [ChatMsg.mk "system" s] := by
        unfold instructionBlock
        rw [hoveq]
        simp [hne, List.append_assoc]
      rw [this, List.getLast?_concat]
      rfl

def envOv : PromptEnv := PromptEnv.mk "" "" (some "ov")

def oneSummary : List Summary := [Summary.mk 1 "sum-text" Option.none Option.none]

/-- C3 witness: on a concrete store the first summary entry sits right after
the instruction block, the first short-window entry right after the summary
block, and the override is the last instruction entry. -/
theorem assembler_block_order_wit :
    (build_llm_messages envOv distinctLog oneSummary 100 "q" "user" 15 30)[(instructionBlock envOv).length + 0]? =
      (summaryBlock oneSummary 30)[0]? ∧
    (build_llm_messages envOv distinctLog oneSummary 100 "q" "user" 15 30)[(instructionBlock envOv).length +
        ((summaryBlock oneSummary 30).length + 0)]? = (shortBlock distinctLog (100 - 15 * 60))[0]? ∧
    (instructionBlock envOv).getLast? =
      some (ChatMsg.mk "system" (envOv.system_prompt_override.getD "")) :=
  ⟨(assembler_block_order envOv distinctLog oneSummary 100 "q" "user" 15 30).2.2.1 0 (by decide),
   (assembler_block_order envOv distinctLog oneSummary 100 "q" "user" 15 30).2.2.2.1 0 (by decide),
   (assembler_block_order envOv distinctLog oneSummary 100 "q" "user" 15 30).2.2.2.2.2.2 (by decide)⟩

def msgUSER : Message := Message.mk 100 "USER" "web-chat" "chat" "hello-up" Option.none Option.none

def envNone : PromptEnv := PromptEnv.mk "" "" Option.none

/-- C5 counterexample: the stored role USER lies outside the set containing
user and assistant, yet the assembler emits that short-window message with
role user, not system, so the case-sensitive reading of the mapping fails. -/
theorem short_role_uppercase_not_system :
    (msgUSER.role ≠ "user" ∧ msgUSER.role ≠ "assistant") ∧
    build_llm_messages envNone [msgUSER] [] 100 "q" "user" 15 30 =
      [ChatMsg.mk "user" "hello-up", ChatMsg.mk "user" "q"] ∧
    ChatMsg.mk "system" msgUSER.text ∉
      build_llm_messages envNone [msgUSER] [] 100 "q" "user" 15 30 :=
  ⟨by decide, by decide, by decide⟩

/-- C5 amended: every short-window message whose lower-cased role is outside
user and assistant is emitted with role system; every short-window message
keeps its text verbatim under the role map; and the short-window entries
form one contiguous ascending-by-timestamp run placed before the final
current entry, with window membership being ts strictly greater than the
cutoff. -/
theorem short_window_role_mapping_amended (env : PromptEnv) (log : List Message)
    (sums : List Summary) (now : Int) (ct cr : String) (w sl : Int) :
    (∀ m, m ∈ get_recent_messages log (now - w * 60) ↔
      (m ∈ log ∧ now - w * 60 < m.ts)) ∧
    List.Sorted tsLE (get_recent_messages log (now - w * 60)) ∧
    build_llm_messages env log sums now ct cr w sl =
      instructionBlock env ++ summaryBlock sums sl ++
        (get_recent_messages log (now - w * 60)).map
          (fun m => ChatMsg.mk (mapShortRole m.role) m.text) ++ [ChatMsg.mk cr ct] ∧
    (∀ m, m ∈ get_recent_messages log (now - w * 60) →
      strLower m.role ≠ "user" → strLower m.role ≠ "assistant" →
      ChatMsg.mk "system" m.text ∈ build_llm_messages env log sums now ct cr w sl) := by
  refine ⟨?_, ?_, rfl, ?_⟩
  · intro m
    unfold get_recent_messages
    rw [mem_sortByTsAsc, List.mem_filter]
    simp
  · exact sorted_sortByTsAsc _
  · intro m hm h1 h2
    have hrole : mapShortRole m.role = "system" := by
      unfold mapShortRole
      simp [h1, h2]
    have hmem : ChatMsg.mk "system" m.text ∈ shortBlock log (now - w * 60) := by
      unfold shortBlock
      rw [← hrole]
      exact List.mem_map_of_mem _ hm
    unfold build_llm_messages
    simp only [List.mem_append]
    exact Or.inl (Or.inr hmem)

def msgEVENT : Message := Message.mk 100 "EVENT" "uptime-kuma" "monitoring" "boom" Option.none Option.none

/-- C5 witness: a stored EVENT role, lower-cased to event, lies outside user
and assistant and is emitted as a system entry with its text verbatim. -/
theorem short_window_role_mapping_amended_wit :
    ChatMsg.mk "system" msgEVENT.text ∈
      build_llm_messages envNone [msgEVENT] [] 100 "q" "user" 15 30 :=
  (short_window_role_mapping_amended envNone [msgEVENT] [] 100 "q" "user" 15 30).2.2.2
    msgEVENT
    (((short_window_role_mapping_amended envNone [msgEVENT] [] 100 "q" "user" 15 30).1
        msgEVENT).mpr ⟨List.mem_singleton_self msgEVENT, by decide⟩)
    (by decide) (by decide)

/-- C9: the role mapping of the context assembler is case-insensitive: a
short-window message maps to role system exactly when its lower-cased role
is outside user and assistant, and a message whose lower-cased role is user
or assistant keeps that conversational role, appearing in the prompt with
the lower-cased role and its text verbatim. -/
theorem role_mapping_case_insensitive (env : PromptEnv) (log : List Message)
    (sums : List Summary) (now : Int) (ct cr : String) (w sl : Int)
    (m : Message) (hm : m ∈ log) (hw : now - w * 60 < m.ts) :
    (mapShortRole m.role = "system" ↔
      (strLower m.role ≠ "user" ∧ strLower m.role ≠ "assistant")) ∧
    ((strLower m.role = "user" ∨ strLower m.role = "assistant") →
      mapShortRole m.role = strLower m.role ∧
      ChatMsg.mk (strLower m.role) m.text ∈
        build_llm_messages env log sums now ct cr w sl) := by
  constructor
  · unfold mapShortRole
    by_cases h1 : strLower m.role = "user"
    · simp [h1]
    · by_cases h2 : strLower m.role = "assistant"
      · simp [h1, h2]
      · simp [h1, h2]
  · intro hor
    have hrole : mapShortRole m.role = strLower m.role := by
      unfold mapShortRole
      rcases hor with h | h <;> simp [h]
    refine ⟨hrole, ?_⟩
    have hmemw : m ∈ get_recent_messages log (now - w * 60) := by
      unfold get_recent_messages
      rw [mem_sortByTsAsc, List.mem_filter]
      exact ⟨hm, by simpa using hw⟩
    have hmem : ChatMsg.mk (strLower m.role) m.text ∈ shortBlock log (now - w * 60) := by
      unfold shortBlock
      rw [← hrole]
      exact List.mem_map_of_mem _ hmemw
    unfold build_llm_messages
    simp only [List.mem_append]
    exact Or.inl (Or.inr hmem)

/-- C9 witness: the stored role USER keeps its conversational role: it is
lower-cased to user and its entry appears in the prompt with that role. -/
theorem role_mapping_case_insensitive_wit :
    mapShortRole msgUSER.role = strLower msgUSER.role ∧
    ChatMsg.mk (strLower msgUSER.role) msgUSER.text ∈
      build_llm_messages envNone [msgUSER] [] 100 "q" "user" 15 30 :=
  (role_mapping_case_insensitive envNone [msgUSER] [] 100 "q" "user" 15 30 msgUSER
    (List.mem_singleton_self msgUSER) (by decide)).2 (Or.inl (by decide))

/-- C6: with the hosted OpenAI backend selected and no API key configured
(absent or empty), the dispatcher fails with the missing-credential error
before any network call: the transport is invoked zero times and the
outcome does not depend on the transport at all. -/
theorem openai_missing_key_no_network (cfg : LLMConfig) (transport : Transport)
    (messages : List ChatMsg) (hp : strLower cfg.provider = "openai")
    (hk : truthyOptStr cfg.openai_api_key = false) :
    call_llm cfg transport messages =
      (Except.error ⟨500, "OPENAI_API_KEY is not set but LLM_PROVIDER is \x27openai\x27"⟩, 0) ∧
    (∀ transport2 : Transport,
      call_llm cfg transport messages = call_llm cfg transport2 messages) := by
  have hno : strLower cfg.provider ≠ "ollama" := by
    rw [hp]
    decide
  have key : ∀ t : Transport, call_llm cfg t messages =
      (Except.error ⟨500, "OPENAI_API_KEY is not set but LLM_PROVIDER is \x27openai\x27"⟩, 0) := by
    intro t
    simp only [call_llm]
    rw [if_neg hno, if_pos hp, if_pos hk]
  exact ⟨key transport, fun t2 => (key transport).trans (key t2).symm⟩

def cfgNoKey : LLMConfig :=
  LLMConfig.mk "openai" "http://host.docker.internal:11434" "hola" Option.none "gpt-4-1106-preview"

def transportDown : Transport := fun _ _ _ => HttpOutcome.fail "connection refused"

/-- C6 witness: the concrete unconfigured-key dispatch yields the
missing-credential error with a zero transport invocation count. -/
theorem openai_missing_key_no_network_wit :
    call_llm cfgNoKey transportDown [] =
      (Except.error ⟨500, "OPENAI_API_KEY is not set but LLM_PROVIDER is \x27openai\x27"⟩, 0) :=
  (openai_missing_key_no_network cfgNoKey transportDown [] (by decide) (by decide)).1

lemma joinSep_cons_exists (sep h : String) (xs : List String) :
    ∃ rest : String, joinSep sep (h :: xs) = h ++ rest := by
  cases xs with
  | nil =>
    refine ⟨"", ?_⟩
    simp [joinSep]
  | cons y ys =>
    refine ⟨sep ++ joinSep sep (y :: ys), ?_⟩
    simp [joinSep, String.append_assoc]

/-- C8: the monitoring normalizer is total and always yields one line
starting with the fixed headline built from the resolved name and
upper-cased status; on the documented payload it yields exactly the
documented line; and with all name and status source fields absent it
degrades to the defaults Unknown monitor and unknown rendered upper-case. -/
theorem uptime_normalizer_spec :
    (∀ p : Payload, ∃ rest : String, format_uptime_payload p =
      "[Uptime Kuma] " ++ (uptimeName p).pyStr ++ " is " ++
        strUpper (uptimeStatus p).pyStr ++ rest) ∧
    format_uptime_payload [("monitor_name", PyVal.str "API"), ("status", PyVal.str "down")] =
      "[Uptime Kuma] API is DOWN" ∧
    (∀ p : Payload, p.lookup "monitor_name" = Option.none →
      p.lookup "name" = Option.none → p.lookup "status" = Option.none →
      p.lookup "event" = Option.none →
      uptimeName p = PyVal.str "Unknown monitor" ∧
      uptimeStatus p = PyVal.str "unknown" ∧
      (uptimeParts p).head? = some "[Uptime Kuma] Unknown monitor is UNKNOWN") := by
  refine ⟨?_, rfl, ?_⟩
  · intro p
    exact joinSep_cons_exists " | " _ _
  · intro p h1 h2 h3 h4
    have hname : uptimeName p = PyVal.str "Unknown monitor" := by
      unfold uptimeName pyGet
      rw [h1, h2]
      rfl
    have hstat : uptimeStatus p = PyVal.str "unknown" := by
      unfold uptimeStatus pyGet
      rw [h3, h4]
      rfl
    refine ⟨hname, hstat, ?_⟩
    have hhead : (uptimeParts p).head? = some ("[Uptime Kuma] " ++ (uptimeName p).pyStr ++
        " is " ++ strUpper (uptimeStatus p).pyStr) := rfl
    rw [hhead, hname, hstat]
    rfl

/-- C8 witness: a payload with only a msg field resolves both defaults. -/
theorem uptime_normalizer_spec_wit :
    uptimeName [("msg", PyVal.str "warn")] = PyVal.str "Unknown monitor" ∧
    uptimeStatus [("msg", PyVal.str "warn")] = PyVal.str "unknown" ∧
    (uptimeParts [("msg", PyVal.str "warn")]).head? =
      some "[Uptime Kuma] Unknown monitor is UNKNOWN" :=
  uptime_normalizer_spec.2.2 [("msg", PyVal.str "warn")] rfl rfl rfl rfl

/-- C10: a present-but-falsy payload field behaves exactly like a missing
one: a falsy monitor_name falls through to the name field, falsy status and
event fall through to the default unknown, and falsy msg and monitor_url
values are omitted, leaving the line consisting of the headline alone. -/
theorem uptime_falsy_fallthrough (p : Payload) (vmn vs vm vu : PyVal) (nm : String)
    (h1 : p.lookup "monitor_name" = some vmn) (h2 : vmn.truthy = false)
    (h3 : p.lookup "name" = some (PyVal.str nm)) (h4 : nm ≠ "")
    (h5 : p.lookup "status" = some vs) (h6 : vs.truthy = false)
    (h7 : p.lookup "event" = Option.none)
    (h8 : p.lookup "msg" = some vm) (h9 : vm.truthy = false)
    (h10 : p.lookup "message" = Option.none)
    (h11 : p.lookup "monitor_url" = some vu) (h12 : vu.truthy = false)
    (h13 : p.lookup "url" = Option.none) :
    uptimeName p = PyVal.str nm ∧
    uptimeStatus p = PyVal.str "unknown" ∧
    (uptimeUrl p).truthy = false ∧
    (uptimeMessage p).truthy = false ∧
    format_uptime_payload p = "[Uptime Kuma] " ++ nm ++ " is UNKNOWN" := by
  have hname : uptimeName p = PyVal.str nm := by
    unfold uptimeName pyGet
    rw [h1, h3]
    simp only [PyVal.orDefault, h2, Bool.false_eq_true, if_false]
    simp [PyVal.truthy, h4]
  have hstat : uptimeStatus p = PyVal.str "unknown" := by
    unfold uptimeStatus pyGet
    rw [h5, h7]
    simp only [PyVal.orDefault, h6, Bool.false_eq_true, if_false]
    simp [PyVal.truthy]
  have hurl : (uptimeUrl p).truthy = false := by
    unfold uptimeUrl pyGet
    rw [h11, h13]
    simp only [PyVal.orDefault, h12, Bool.false_eq_true, if_false]
    simp [PyVal.truthy]
  have hmsg : (uptimeMessage p).truthy = false := by
    unfold uptimeMessage pyGet
    rw [h8, h10]
    simp only [PyVal.orDefault, h9, Bool.false_eq_true, if_false]
    simp [PyVal.truthy]
  refine ⟨hname, hstat, hurl, hmsg, ?_⟩
  unfold format_uptime_payload uptimeParts
  rw [hname, hstat, hurl, hmsg]
  simp only [Bool.false_eq_true, if_false, List.append_nil]
  show "[Uptime Kuma] " ++ nm ++ " is " ++ strUpper "unknown" =
    "[Uptime Kuma] " ++ nm ++ " is UNKNOWN"
  rw [String.append_assoc ("[Uptime Kuma] " ++ nm) " is " (strUpper "unknown")]
  rfl

/-- C10 witness: a payload whose monitor_name, status, msg and monitor_url
are all present but falsy renders the name fallback and the defaults, with
the falsy parts omitted. -/
theorem uptime_falsy_fallthrough_wit :
    format_uptime_payload
      [("monitor_name", PyVal.str ""), ("name", PyVal.str "API"),
       ("status", PyVal.int 0), ("msg", PyVal.bool false),
       ("monitor_url", PyVal.none)] = "[Uptime Kuma] API is UNKNOWN" :=
  (uptime_falsy_fallthrough
    [("monitor_name", PyVal.str ""), ("name", PyVal.str "API"),
     ("status", PyVal.int 0), ("msg", PyVal.bool false),
     ("monitor_url", PyVal.none)]
    (PyVal.str "") (PyVal.int 0) (PyVal.bool false) PyVal.none "API"
    rfl rfl rfl (by decide) rfl rfl rfl rfl rfl rfl rfl rfl rfl).2.2.2.2

def cfgOllama : LLMConfig :=
  LLMConfig.mk "ollama" "http://host.docker.internal:11434" "hola" Option.none "gpt-4-1106-preview"

/-- C1 counterexample: with the backend down, the chat request on an empty
store ends with the 502 error and the rollback in get_db erases the user
message that create_message had recorded: the durable log after the request
is empty, so the input message did not remain persisted. -/
theorem chat_backend_failure_rolls_back_demo :
    (chat_endpoint cfgOllama envNone transportDown (SessionState.mk [] []) [] "hi" 0).1.committed = [] ∧
    (chat_endpoint cfgOllama envNone transportDown (SessionState.mk [] []) [] "hi" 0).2 =
      Except.error ⟨502, "Ollama API error: connection refused"⟩ := by
  constructor <;> rfl

/-- C1 amended: when the dispatcher fails, the handler re-raises and the
get_db dependency rolls the per-request transaction back, so the user
message recorded by create_message is erased rather than kept: the durable
log after the request equals the log before it, containing neither the
input message nor an assistant reply, and the error is surfaced to the
caller. -/
theorem chat_backend_failure_erases_input (cfg : LLMConfig) (env : PromptEnv)
    (transport : Transport) (st : SessionState) (sums : List Summary)
    (text : String) (now : Int) (e : HttpErr)
    (hfail : (call_llm cfg transport
      (build_llm_messages env st.committed sums now text "user" 15 30)).1 =
        Except.error e) :
    (chat_endpoint cfg env transport st sums text now).1.committed = st.committed ∧
    (chat_endpoint cfg env transport st sums text now).1.pending = [] ∧
    (chat_endpoint cfg env transport st sums text now).2 = Except.error e := by
  unfold chat_endpoint
  simp only [create_message]
  rw [hfail]
  exact ⟨rfl, rfl, rfl⟩

def preMsg : Message := Message.mk 10 "user" "web-chat" "chat" "earlier" Option.none Option.none

/-- C1 witness: with one already-committed row and a failing backend, the
request leaves the durable log unchanged and surfaces the 502 error. -/
theorem chat_backend_failure_erases_input_wit :
    (chat_endpoint cfgOllama envNone transportDown (SessionState.mk [preMsg] []) [] "hello" 50).1.committed =
      [preMsg] ∧
    (chat_endpoint cfgOllama envNone transportDown (SessionState.mk [preMsg] []) [] "hello" 50).1.pending = [] ∧
    (chat_endpoint cfgOllama envNone transportDown (SessionState.mk [preMsg] []) [] "hello" 50).2 =
      Except.error ⟨502, "Ollama API error: connection refused"⟩ :=
  chat_backend_failure_erases_input cfgOllama envNone transportDown
    (SessionState.mk [preMsg] []) [] "hello" 50
    ⟨502, "Ollama API error: connection refused"⟩ rfl
